import Mathlib

/-!
Verification of the toy-npm install/uninstall engine (src/toy-npm.js).

The JavaScript source is shallowly embedded: JSON objects become association
lists with string keys, the three persistent artifacts (the dependency
manifest `toy-package.json`, the lock file `toy-package-lock.json`, and the
`toy_node_modules` directory tree) become fields of an explicit `Sys` state,
and every filesystem- or network-touching function becomes a pure function
from `Sys` (and a `World` describing the registry and injected failures) to a
new `Sys` or an outcome.  Promise semantics are made explicit: a promise that
can never settle (the source wraps extraction in `new Promise((resolve) => …)`
with no reject path and no catch handler) is modelled by the `pending`
outcome.
-/

namespace ToyNpm

/-- JS object assignment `m[k] = v`: update the existing key in place, else
append the new key. -/
def setKey {α : Type} (m : List (String × α)) (k : String) (v : α) :
    List (String × α) :=
  match m with
  | [] => [(k, v)]
  | (k2, v2) :: rest =>
      if k2 == k then (k, v) :: rest else (k2, v2) :: setKey rest k v

/-- JS `delete m[k]`: remove the key (object keys are unique, so filtering is
equivalent). -/
def delKey {α : Type} (m : List (String × α)) (k : String) :
    List (String × α) :=
  m.filter (fun p => p.1 != k)

/-- Per-version `dist` record of the registry metadata:
`versions.<v>.dist.{tarball, shasum}`. -/
structure DistInfo where
  tarball : String
  shasum : String
deriving DecidableEq, Repr

/-- Per-version registry document, as returned by
`GET registry/<name>/<version>` (used by `getPackageData`). -/
structure VersionData where
  version : String
  dist : DistInfo
deriving DecidableEq, Repr

/-- Full packument for one package, as returned by
`GET registry/<name>` (used by `fetchPackageMetadata`): the `dist-tags.latest`
tag and the version mapping. -/
structure Metadata where
  distTagsLatest : String
  versions : List (String × VersionData)
deriving DecidableEq, Repr

/-- The remote registry: packuments by name, plus the file entries contained
in each tarball URL (after the `strip: 1` of `tar.x`, so entry names are the
paths that land directly in the package directory). -/
structure Registry where
  packages : List (String × Metadata)
  tarballs : List (String × List String)
deriving DecidableEq, Repr

/-- The external world of one run: the registry plus injected failures —
tarball URLs whose `axios.get` fails, whether the tarball write stream errors
(its `finish` event then never fires), and whether `tar.x` rejects. -/
structure World where
  registry : Registry
  failingTarballs : List String
  streamWriteFails : Bool
  extractFails : Bool
deriving DecidableEq, Repr

/-- One entry of `toy-package-lock.json`: the `installedPackageInfo` record
built in `installPackage`. -/
structure PackageInfo where
  version : String
  resolved : String
  integrity : String
deriving DecidableEq, Repr

/-- Parsed `toy-package.json`: the two dependency groups plus the remaining
project-metadata fields, which the code never touches and JSON round-trips
verbatim (kept opaque as a key/value list). -/
structure ToyPackageJson where
  meta : List (String × String)
  dependencies : List (String × String)
  devDependencies : List (String × String)
deriving DecidableEq, Repr

/-- The persistent state: the manifest file (`none` = file absent), the lock
file (`none` = file absent), the `toy_node_modules` tree (directory name to
the files inside it), and write counters recording every `fs.writeFileSync`
on the manifest and on the lock file (so "no write happened at all" is
expressible, not just "same contents"). -/
structure Sys where
  toyPackageJson : Option ToyPackageJson
  lockFile : Option (List (String × PackageInfo))
  moduleDirs : List (String × List String)
  manifestWrites : Nat
  lockWrites : Nat
deriving DecidableEq, Repr

/-- Errors raised on the install path: the thrown `Error` of
`downloadPackage` for a missing version, axios failures for a missing package
or an unreachable tarball URL. -/
inductive InstallError where
  | packageNotFound (name : String)
  | versionNotFound (version name : String)
  | networkError (url : String)
deriving DecidableEq, Repr

/-- `fetchPackageMetadata(packageName)`: `GET registry/<name>`. -/
def fetchPackageMetadata (reg : Registry) (packageName : String) :
    Except InstallError Metadata :=
  match reg.packages.lookup packageName with
  | some md => .ok md
  | none => .error (.packageNotFound packageName)

/-- The value returned by `downloadPackage`: the tarball byte stream, with
the `resolvedVersion` property the source attaches to it. -/
structure PackageStream where
  tarballUrl : String
  resolvedVersion : String
deriving DecidableEq, Repr

/-- `downloadPackage(packageName, version)`: fetch metadata, resolve
`"latest"` or an absent version to `dist-tags.latest`, throw if the resolved
version is not in the version mapping, then fetch the tarball stream.  An
absent JS `version` argument (undefined, falsy) is modelled by `""`. -/
def downloadPackage (w : World) (packageName version : String) :
    Except InstallError PackageStream :=
  match fetchPackageMetadata w.registry packageName with
  | .error e => .error e
  | .ok metadata =>
    let resolvedVersion :=
      if version == "latest" || version == "" then metadata.distTagsLatest
      else version
    match metadata.versions.lookup resolvedVersion with
    | none => .error (.versionNotFound resolvedVersion packageName)
    | some vd =>
      if w.failingTarballs.contains vd.dist.tarball then
        .error (.networkError vd.dist.tarball)
      else
        .ok { tarballUrl := vd.dist.tarball, resolvedVersion := resolvedVersion }

/-- `getPackageData(packageName, version)`: `GET registry/<name>/<version>`,
the second registry round-trip used to fill the lock entry. -/
def getPackageData (reg : Registry) (packageName version : String) :
    Except InstallError VersionData :=
  match reg.packages.lookup packageName with
  | none => .error (.packageNotFound packageName)
  | some md =>
    match md.versions.lookup version with
    | none => .error (.versionNotFound version packageName)
    | some vd => .ok vd

/-- The default object `updateToyPackageJson` starts from when
`toy-package.json` does not exist. -/
def defaultToyPackageJson : ToyPackageJson :=
  { meta := [("name", "toy-npm"), ("version", "1.0.0"), ("description", ""),
             ("main", "index.js")],
    dependencies := [], devDependencies := [] }

/-- `updateToyPackageJson(packageName, version, isDevDependency)`: read the
full manifest (or the default if the file is absent), set the key in the
group selected by the flag, write the full file back. -/
def updateToyPackageJson (s : Sys) (packageName version : String)
    (isDevDependency : Bool) : Sys :=
  let toyPackageJson :=
    match s.toyPackageJson with
    | some j => j
    | none => defaultToyPackageJson
  let toyPackageJson :=
    if isDevDependency then
      { toyPackageJson with
          devDependencies := setKey toyPackageJson.devDependencies packageName version }
    else
      { toyPackageJson with
          dependencies := setKey toyPackageJson.dependencies packageName version }
  { s with toyPackageJson := some toyPackageJson,
           manifestWrites := s.manifestWrites + 1 }

/-- `removeFromToyPackageJson(packageName)`: no-op if the manifest file is
absent; otherwise delete the key from both groups and write the file back. -/
def removeFromToyPackageJson (s : Sys) (packageName : String) : Sys :=
  match s.toyPackageJson with
  | none => s
  | some toyPackageJson =>
    { s with
        toyPackageJson := some
          { toyPackageJson with
              dependencies := delKey toyPackageJson.dependencies packageName,
              devDependencies := delKey toyPackageJson.devDependencies packageName },
        manifestWrites := s.manifestWrites + 1 }

/-- `updateToyPackageLockJson(packageName, packageInfo)`: read the lock file
if it exists (else start from the empty object), set the key, write the full
file back. -/
def updateToyPackageLockJson (s : Sys) (packageName : String)
    (packageInfo : PackageInfo) : Sys :=
  let lockfileData :=
    match s.lockFile with
    | some l => l
    | none => []
  { s with lockFile := some (setKey lockfileData packageName packageInfo),
           lockWrites := s.lockWrites + 1 }

/-- `removePackageFromToyPackageLockJson(packageName)`: only if the lock file
exists and the key is present is the key deleted and the file rewritten;
otherwise nothing is written at all. -/
def removePackageFromToyPackageLockJson (s : Sys) (packageName : String) :
    Sys :=
  match s.lockFile with
  | none => s
  | some lockfileData =>
    if (lockfileData.lookup packageName).isSome then
      { s with lockFile := some (delKey lockfileData packageName),
               lockWrites := s.lockWrites + 1 }
    else s

/-- Files inside one module directory, `[]` if the directory is absent
(`moduleDirs` carries an entry exactly when the directory exists). -/
def dirContents (s : Sys) (name : String) : Option (List String) :=
  s.moduleDirs.lookup name

/-- Overwrite (or create) one module directory's file list. -/
def setDir (s : Sys) (name : String) (files : List String) : Sys :=
  { s with moduleDirs := setKey s.moduleDirs name files }

/-- `fs.mkdirSync(packagePath, { recursive: true })`: create the directory if
absent; an existing directory and its contents are untouched. -/
def mkdirRecursive (s : Sys) (name : String) : Sys :=
  match s.moduleDirs.lookup name with
  | some _ => s
  | none => setDir s name []

/-- Add one file to a file list if not already present (creating or
truncating a file leaves one directory entry either way). -/
def insertFile (files : List String) (f : String) : List String :=
  if files.contains f then files else files ++ [f]

/-- `tar.x` materialising the archive entries into the directory: every entry
is written, files already present that the archive does not contain are left
in place (the source never clears the target directory first). -/
def extractFiles (files : List String) (entries : List String) : List String :=
  entries.foldl insertFile files

/-- The tarball filename `installPackage` writes into the module directory:
the template literal of the source. -/
def tgzName (packageName version : String) : String :=
  packageName ++ "-" ++ version ++ ".tgz"

/-- Outcome of one package's install pipeline.  `pending` is a promise that
never settles: the source awaits `new Promise((resolve) => …)` whose reject
is never wired up, so a write-stream error, a `tar.x` rejection, or a
rejection of the awaited `getPackageData` inside the `then` callback leaves
the promise forever unsettled (the inner rejection is unhandled). -/
inductive InstallOutcome where
  | success (s : Sys)
  | rejected (e : InstallError) (s : Sys)
  | pending (s : Sys)
deriving DecidableEq, Repr

/-- The state an outcome carries. -/
def InstallOutcome.sys : InstallOutcome → Sys
  | .success s => s
  | .rejected _ s => s
  | .pending s => s

/-- Whether the outcome is a settled rejection. -/
def InstallOutcome.isRejected : InstallOutcome → Bool
  | .rejected _ _ => true
  | _ => false

/-- Whether the outcome is a settled success. -/
def InstallOutcome.isSuccess : InstallOutcome → Bool
  | .success _ => true
  | _ => false

/-- Body of the `tar.x(…).then(async () => { … })` callback in
`installPackage`: unlink the tarball, update `toy-package.json` (with the
already-reassigned resolved version), re-fetch the per-version package data,
and upsert the lock file.  A rejection of the awaited `getPackageData` is
unhandled inside the callback, so `resolve()` is never called: `pending`. -/
def afterExtract (w : World) (s : Sys) (packageName version tgz : String)
    (isDevDependency : Bool) : InstallOutcome :=
  let s := setDir s packageName
    (((dirContents s packageName).getD []).filter (fun f => f != tgz))
  let s := updateToyPackageJson s packageName version isDevDependency
  match getPackageData w.registry packageName version with
  | .error _ => .pending s
  | .ok packageData =>
    let installedPackageInfo : PackageInfo :=
      { version := packageData.version,
        resolved := packageData.dist.tarball,
        integrity := packageData.dist.shasum }
    .success (updateToyPackageLockJson s packageName installedPackageInfo)

/-- `installPackage(packageName, version, isDevDependency)`: mkdir the module
directory, download (resolving the version), reassign `version` to the
resolved version, stream the tarball to `<name>-<version>.tgz` inside the
directory (the write stream creates the file on open), then on `finish`
extract and run `afterExtract`.  A write-stream error or a `tar.x` rejection
leaves the promise pending; only `downloadPackage` failures reject. -/
def installPackage (w : World) (s0 : Sys) (packageName version : String)
    (isDevDependency : Bool) : InstallOutcome :=
  let s := mkdirRecursive s0 packageName
  match downloadPackage w packageName version with
  | .error e => .rejected e s
  | .ok packageStream =>
    let version := packageStream.resolvedVersion
    let tgz := tgzName packageName version
    let s := setDir s packageName
      (insertFile ((dirContents s packageName).getD []) tgz)
    if w.streamWriteFails then .pending s
    else if w.extractFails then .pending s
    else
      let s := setDir s packageName
        (extractFiles ((dirContents s packageName).getD [])
          ((w.registry.tarballs.lookup packageStream.tarballUrl).getD []))
      afterExtract w s packageName version tgz isDevDependency

/-- Outcome of `uninstallPackage`: either the directory was absent (logged
"not found", nothing done) or the uninstall ran. -/
inductive UninstallOutcome where
  | notFound (s : Sys)
  | done (s : Sys)
deriving DecidableEq, Repr

/-- The state an uninstall outcome carries. -/
def UninstallOutcome.sys : UninstallOutcome → Sys
  | .notFound s => s
  | .done s => s

/-- `uninstallPackage(packageName)`: if the module directory does not exist,
log and return; otherwise `fs.rmSync` it recursively, remove the name from
both manifest groups, and remove it from the lock file. -/
def uninstallPackage (s : Sys) (packageName : String) : UninstallOutcome :=
  match s.moduleDirs.lookup packageName with
  | none => .notFound s
  | some _ =>
    let s := { s with moduleDirs := delKey s.moduleDirs packageName }
    let s := removeFromToyPackageJson s packageName
    .done (removePackageFromToyPackageLockJson s packageName)

/-- Total package count of a manifest, as computed in
`installFromToyPackageJson`: regular plus dev dependency keys. -/
def totalPackages (tpj : ToyPackageJson) : Nat :=
  tpj.dependencies.length + tpj.devDependencies.length

/-- `Math.min(Math.ceil(totalPackages / 2), 8)`: natural-number form, using
that the ceiling of n / 2 is (n + 1) / 2 in truncating division. -/
def concurrencyLimit (totalPackages : Nat) : Nat :=
  min ((totalPackages + 1) / 2) 8

/-- The concurrency limit `installFromToyPackageJson` hands to `pLimit`. -/
def installLimit (tpj : ToyPackageJson) : Nat :=
  concurrencyLimit (totalPackages tpj)

/-- Scheduler state of the `pLimit` fan-out: how many per-package pipelines
are still queued, currently in flight, and settled. -/
structure LimitState where
  queued : Nat
  active : Nat
  settled : Nat
deriving DecidableEq, Repr

/-- One scheduler step of `pLimit(limit)`: a queued task may start only while
fewer than `limit` tasks are in flight; an in-flight task may settle. -/
inductive LimitStep (limit : Nat) : LimitState → LimitState → Prop
  | start (c : LimitState) (hact : c.active < limit) (hq : 0 < c.queued) :
      LimitStep limit c ⟨c.queued - 1, c.active + 1, c.settled⟩
  | finish (c : LimitState) (hact : 0 < c.active) :
      LimitStep limit c ⟨c.queued, c.active - 1, c.settled + 1⟩

/-- States reachable by the scheduler from an initial state. -/
inductive LimitReachable (limit : Nat) (init : LimitState) :
    LimitState → Prop
  | refl : LimitReachable limit init init
  | step {c c2 : LimitState} (h : LimitReachable limit init c)
      (hs : LimitStep limit c c2) : LimitReachable limit init c2

/-- Initial scheduler state for a manifest: every package queued, none in
flight. -/
def initState (tpj : ToyPackageJson) : LimitState :=
  ⟨totalPackages tpj, 0, 0⟩

/-! Basic lemmas about the JSON-object primitives. -/

theorem lookup_setKey_self {α : Type} (m : List (String × α)) (k : String)
    (v : α) : (setKey m k v).lookup k = some v := by
  induction m with
  | nil => simp [setKey, List.lookup]
  | cons p rest ih =>
    obtain ⟨k2, v2⟩ := p
    cases h : k2 == k with
    | true =>
      simp only [setKey, h, if_pos]
      simp [List.lookup]
    | false =>
      simp only [setKey, h]
      have hne : (k == k2) = false := by
        rw [beq_eq_false_iff_ne] at h ⊢
        exact fun he => h he.symm
      simp [List.lookup, hne, ih]

theorem lookup_setKey_ne {α : Type} (m : List (String × α)) (k k2 : String)
    (v : α) (hne : k2 ≠ k) : (setKey m k v).lookup k2 = m.lookup k2 := by
  induction m with
  | nil =>
    have : (k2 == k) = false := beq_eq_false_iff_ne.mpr hne
    simp [setKey, List.lookup, this]
  | cons p rest ih =>
    obtain ⟨ka, va⟩ := p
    cases h : ka == k with
    | true =>
      have hka : ka = k := beq_iff_eq.mp h
      have h1 : (k2 == k) = false := beq_eq_false_iff_ne.mpr hne
      have h2 : (k2 == ka) = false := by rw [hka]; exact h1
      simp only [setKey, h, if_pos]
      simp [List.lookup, h1, h2]
    | false =>
      simp only [setKey, h]
      simp [List.lookup, ih]

theorem lookup_delKey_self {α : Type} (m : List (String × α)) (k : String) :
    (delKey m k).lookup k = none := by
  induction m with
  | nil => simp [delKey, List.lookup]
  | cons p rest ih =>
    obtain ⟨ka, va⟩ := p
    cases h : ka == k with
    | true =>
      have : (ka != k) = false := by simp [bne, h]
      simpa [delKey, this] using ih
    | false =>
      have h1 : (ka != k) = true := by simp [bne, h]
      have h2 : (k == ka) = false := by
        rw [beq_eq_false_iff_ne] at h ⊢
        exact fun he => h he.symm
      simp only [delKey, List.filter] at ih ⊢
      simp [h1, List.lookup, h2, ih]

theorem mem_insertFile_of_mem (files : List String) (f a : String)
    (h : a ∈ files) : a ∈ insertFile files f := by
  unfold insertFile
  split
  · exact h
  · exact List.mem_append_left _ h

theorem mem_insertFile_self (files : List String) (f : String) :
    f ∈ insertFile files f := by
  unfold insertFile
  split
  · next hc => simpa using hc
  · exact List.mem_append_right _ (List.mem_singleton.mpr rfl)

theorem mem_extractFiles_of_mem (entries : List String) :
    ∀ (files : List String) (a : String), a ∈ files →
      a ∈ extractFiles files entries := by
  induction entries with
  | nil => intro files a h; simpa [extractFiles] using h
  | cons e rest ih =>
    intro files a h
    show a ∈ extractFiles (insertFile files e) rest
    exact ih _ _ (mem_insertFile_of_mem _ _ _ h)

theorem mem_extractFiles_of_entry (entries : List String)
    (files : List String) (a : String) (h : a ∈ entries) :
    a ∈ extractFiles files entries := by
  induction entries generalizing files with
  | nil => cases h
  | cons e rest ih =>
    rcases List.mem_cons.mp h with he | hr
    · subst he
      show a ∈ extractFiles (insertFile files a) rest
      exact mem_extractFiles_of_mem rest _ a (mem_insertFile_self files a)
    · exact ih (insertFile files e) hr

/-! Observations on the persistent state: what reading the manifest, the
lock file, or the module tree back from disk yields. -/

/-- Requested-version entry for a name in the regular dependency group, as a
reload of `toy-package.json` observes it (`none` if the file is absent or the
key missing). -/
def depOf (s : Sys) (name : String) : Option String :=
  match s.toyPackageJson with
  | none => none
  | some t => t.dependencies.lookup name

/-- Requested-version entry in the dev dependency group. -/
def devDepOf (s : Sys) (name : String) : Option String :=
  match s.toyPackageJson with
  | none => none
  | some t => t.devDependencies.lookup name

/-- The dependency group selected by the dev flag, read from the state. -/
def groupOf (s : Sys) (isDev : Bool) (name : String) : Option String :=
  if isDev then devDepOf s name else depOf s name

/-- The group a manifest record exposes for a dev flag. -/
def selGroup (tpj : ToyPackageJson) (isDev : Bool) : List (String × String) :=
  if isDev then tpj.devDependencies else tpj.dependencies

/-- The opaque project-metadata fields of the persisted manifest. -/
def manifestMeta (s : Sys) : Option (List (String × String)) :=
  s.toyPackageJson.map ToyPackageJson.meta

/-- Lock entry for a name, as a reload of `toy-package-lock.json` observes
it. -/
def lockOf (s : Sys) (name : String) : Option PackageInfo :=
  match s.lockFile with
  | none => none
  | some l => l.lookup name

/-- Whether an uninstall actually ran (the module directory existed). -/
def UninstallOutcome.isDone : UninstallOutcome → Bool
  | .done _ => true
  | .notFound _ => false

/-! Frame lemmas: each primitive touches only its own artifact. -/

theorem mkdirRecursive_frame (s : Sys) (n : String) :
    (mkdirRecursive s n).toyPackageJson = s.toyPackageJson ∧
    (mkdirRecursive s n).lockFile = s.lockFile ∧
    (mkdirRecursive s n).manifestWrites = s.manifestWrites ∧
    (mkdirRecursive s n).lockWrites = s.lockWrites := by
  unfold mkdirRecursive
  cases s.moduleDirs.lookup n <;> exact ⟨rfl, rfl, rfl, rfl⟩

theorem removeFromToyPackageJson_moduleDirs (s : Sys) (n : String) :
    (removeFromToyPackageJson s n).moduleDirs = s.moduleDirs := by
  unfold removeFromToyPackageJson
  cases s.toyPackageJson <;> rfl

theorem removeFromToyPackageJson_lockFile (s : Sys) (n : String) :
    (removeFromToyPackageJson s n).lockFile = s.lockFile := by
  unfold removeFromToyPackageJson
  cases s.toyPackageJson <;> rfl

theorem removeLock_moduleDirs (s : Sys) (n : String) :
    (removePackageFromToyPackageLockJson s n).moduleDirs = s.moduleDirs := by
  unfold removePackageFromToyPackageLockJson
  cases s.lockFile with
  | none => rfl
  | some l => dsimp only; split <;> rfl

theorem removeLock_toyPackageJson (s : Sys) (n : String) :
    (removePackageFromToyPackageLockJson s n).toyPackageJson =
      s.toyPackageJson := by
  unfold removePackageFromToyPackageLockJson
  cases s.lockFile with
  | none => rfl
  | some l => dsimp only; split <;> rfl

theorem depOf_removeFromToyPackageJson (s : Sys) (n : String) :
    depOf (removeFromToyPackageJson s n) n = none := by
  cases h : s.toyPackageJson with
  | none => simp only [removeFromToyPackageJson, depOf, h]
  | some t =>
    simp only [removeFromToyPackageJson, depOf, h]
    exact lookup_delKey_self t.dependencies n

theorem devDepOf_removeFromToyPackageJson (s : Sys) (n : String) :
    devDepOf (removeFromToyPackageJson s n) n = none := by
  cases h : s.toyPackageJson with
  | none => simp only [removeFromToyPackageJson, devDepOf, h]
  | some t =>
    simp only [removeFromToyPackageJson, devDepOf, h]
    exact lookup_delKey_self t.devDependencies n

theorem lockOf_removeLock (s : Sys) (n : String) :
    lockOf (removePackageFromToyPackageLockJson s n) n = none := by
  cases h : s.lockFile with
  | none => simp only [removePackageFromToyPackageLockJson, lockOf, h]
  | some l =>
    cases hlk : l.lookup n with
    | none =>
      simp only [removePackageFromToyPackageLockJson, lockOf, h, hlk,
        Option.isSome_none, Bool.false_eq_true, if_false]
    | some x =>
      simp only [removePackageFromToyPackageLockJson, lockOf, h, hlk,
        Option.isSome_some, if_true]
      exact lookup_delKey_self l n

/-! Concrete fixtures used by witnesses and counterexamples: a small registry
holding left-pad 1.2.0 and 1.3.0 with latest tag 1.3.0. -/

def leftPadMetadata : Metadata :=
  { distTagsLatest := "1.3.0",
    versions :=
      [("1.2.0", { version := "1.2.0",
                   dist := { tarball := "https://reg/left-pad-1.2.0.tgz",
                             shasum := "d1e2" } }),
       ("1.3.0", { version := "1.3.0",
                   dist := { tarball := "https://reg/left-pad-1.3.0.tgz",
                             shasum := "5b8a" } })] }

def testRegistry : Registry :=
  { packages := [("left-pad", leftPadMetadata)],
    tarballs := [("https://reg/left-pad-1.3.0.tgz",
                  ["package.json", "index.js", "README.md"])] }

/-- A run where every network and filesystem step succeeds. -/
def okWorld : World :=
  { registry := testRegistry, failingTarballs := [],
    streamWriteFails := false, extractFails := false }

/-- A run where `tar.x` rejects. -/
def extractFailWorld : World :=
  { okWorld with extractFails := true }

/-- Fresh state: no manifest, no lock file, no module directories. -/
def emptySys : Sys :=
  { toyPackageJson := none, lockFile := none, moduleDirs := [],
    manifestWrites := 0, lockWrites := 0 }

/-- A manifest with one entry in each group plus metadata fields. -/
def sampleManifest : ToyPackageJson :=
  { meta := [("name", "demo-project"), ("version", "1.0.0"),
             ("description", ""), ("main", "index.js")],
    dependencies := [("express", "4.18.2")],
    devDependencies := [("mocha", "10.0.0")] }

/-- A state with the sample manifest persisted, one lock entry and one
installed module directory. -/
def sampleSys : Sys :=
  { toyPackageJson := some sampleManifest,
    lockFile := some [("express",
      { version := "4.18.2", resolved := "https://reg/express-4.18.2.tgz",
        integrity := "ab12" })],
    moduleDirs := [("express", ["index.js", "package.json"])],
    manifestWrites := 0, lockWrites := 0 }

/-! Structural lemmas about the write primitives and the install pipeline. -/

theorem updateToyPackageJson_moduleDirs (s : Sys) (n v : String) (d : Bool) :
    (updateToyPackageJson s n v d).moduleDirs = s.moduleDirs := rfl

theorem updateToyPackageJson_lockFile (s : Sys) (n v : String) (d : Bool) :
    (updateToyPackageJson s n v d).lockFile = s.lockFile := rfl

theorem updateToyPackageLockJson_toyPackageJson (s : Sys) (n : String)
    (i : PackageInfo) :
    (updateToyPackageLockJson s n i).toyPackageJson = s.toyPackageJson := rfl

theorem updateToyPackageLockJson_moduleDirs (s : Sys) (n : String)
    (i : PackageInfo) :
    (updateToyPackageLockJson s n i).moduleDirs = s.moduleDirs := rfl

theorem setDir_toyPackageJson (s : Sys) (n : String) (files : List String) :
    (setDir s n files).toyPackageJson = s.toyPackageJson := rfl

theorem setDir_lockFile (s : Sys) (n : String) (files : List String) :
    (setDir s n files).lockFile = s.lockFile := rfl

theorem setDir_manifestWrites (s : Sys) (n : String) (files : List String) :
    (setDir s n files).manifestWrites = s.manifestWrites := rfl

theorem setDir_lockWrites (s : Sys) (n : String) (files : List String) :
    (setDir s n files).lockWrites = s.lockWrites := rfl

theorem dirContents_setDir_self (s : Sys) (n : String) (files : List String) :
    dirContents (setDir s n files) n = some files :=
  lookup_setKey_self s.moduleDirs n files

theorem groupOf_updateToyPackageJson_self (s : Sys) (n v : String) (d : Bool) :
    groupOf (updateToyPackageJson s n v d) d n = some v := by
  cases hS : s.toyPackageJson with
  | none =>
    cases d <;>
      simp [updateToyPackageJson, hS, groupOf, depOf, devDepOf,
        lookup_setKey_self]
  | some t =>
    cases d <;>
      simp [updateToyPackageJson, hS, groupOf, depOf, devDepOf,
        lookup_setKey_self]

theorem lockOf_updateToyPackageLockJson_self (s : Sys) (n : String)
    (i : PackageInfo) : lockOf (updateToyPackageLockJson s n i) n = some i := by
  cases hS : s.lockFile <;>
    simp [updateToyPackageLockJson, hS, lockOf, lookup_setKey_self]

theorem groupOf_updateToyPackageLockJson (s : Sys) (n2 : String)
    (i : PackageInfo) (d : Bool) (k : String) :
    groupOf (updateToyPackageLockJson s n2 i) d k = groupOf s d k := rfl

theorem dirContents_updateToyPackageJson (s : Sys) (n v : String) (d : Bool)
    (k : String) : dirContents (updateToyPackageJson s n v d) k =
      dirContents s k := rfl

theorem dirContents_updateToyPackageLockJson (s : Sys) (n : String)
    (i : PackageInfo) (k : String) :
    dirContents (updateToyPackageLockJson s n i) k = dirContents s k := rfl

/-- A `downloadPackage` failure makes `installPackage` reject with that same
error, in the state reached after the initial mkdir. -/
theorem installPackage_of_error (w : World) (s0 : Sys) (n v : String)
    (d : Bool) (e : InstallError) (hdl : downloadPackage w n v = .error e) :
    installPackage w s0 n v d = .rejected e (mkdirRecursive s0 n) := by
  simp only [installPackage, hdl]

/-- If the tarball write stream errors, the install promise never settles;
the state holds only the mkdir and the (possibly empty) tarball file. -/
theorem installPackage_of_streamWriteFail (w : World) (s0 : Sys) (n v : String)
    (d : Bool) (ps : PackageStream) (hdl : downloadPackage w n v = .ok ps)
    (hsw : w.streamWriteFails = true) :
    installPackage w s0 n v d =
      .pending (setDir (mkdirRecursive s0 n) n
        (insertFile ((dirContents (mkdirRecursive s0 n) n).getD [])
          (tgzName n ps.resolvedVersion))) := by
  simp only [installPackage, hdl, hsw, if_true]

/-- If `tar.x` rejects, the install promise never settles; the tarball file
is left in place and nothing else changed. -/
theorem installPackage_of_extractFail (w : World) (s0 : Sys) (n v : String)
    (d : Bool) (ps : PackageStream) (hdl : downloadPackage w n v = .ok ps)
    (hsw : w.streamWriteFails = false) (hex : w.extractFails = true) :
    installPackage w s0 n v d =
      .pending (setDir (mkdirRecursive s0 n) n
        (insertFile ((dirContents (mkdirRecursive s0 n) n).getD [])
          (tgzName n ps.resolvedVersion))) := by
  simp only [installPackage, hdl, hsw, hex, Bool.false_eq_true, if_false,
    if_true]

/-- Observations on the state a successful install pipeline leaves behind:
the selected manifest group holds the resolved version, the lock file holds
the second-fetch record, and every tarball entry other than the deleted
tarball file itself is present in the module directory. -/
theorem installPackage_success_obs (w : World) (s0 : Sys) (n v : String)
    (d : Bool) (s2 : Sys) (ps : PackageStream) (vd : VersionData)
    (hdl : downloadPackage w n v = .ok ps)
    (hgd : getPackageData w.registry n ps.resolvedVersion = .ok vd)
    (h : installPackage w s0 n v d = .success s2) :
    groupOf s2 d n = some ps.resolvedVersion ∧
    lockOf s2 n = some ⟨vd.version, vd.dist.tarball, vd.dist.shasum⟩ ∧
    ∀ a, a ∈ (w.registry.tarballs.lookup ps.tarballUrl).getD [] →
      a ≠ tgzName n ps.resolvedVersion →
      a ∈ (dirContents s2 n).getD [] := by
  cases hsw : w.streamWriteFails with
  | true =>
    rw [installPackage_of_streamWriteFail w s0 n v d ps hdl hsw] at h
    cases h
  | false =>
    cases hex : w.extractFails with
    | true =>
      rw [installPackage_of_extractFail w s0 n v d ps hdl hsw hex] at h
      cases h
    | false =>
      simp only [installPackage, hdl, hsw, hex, Bool.false_eq_true, if_false,
        afterExtract, hgd] at h
      injection h with h2
      subst h2
      refine ⟨?_, ?_, ?_⟩
      · rw [groupOf_updateToyPackageLockJson]
        exact groupOf_updateToyPackageJson_self _ _ _ _
      · exact lockOf_updateToyPackageLockJson_self _ n _
      · intro a ha hane
        have hbne : (a != tgzName n ps.resolvedVersion) = true := by
          simp [bne, hane]
        rw [dirContents_updateToyPackageLockJson,
          dirContents_updateToyPackageJson, dirContents_setDir_self,
          Option.getD_some, dirContents_setDir_self, Option.getD_some]
        exact List.mem_filter.mpr ⟨mem_extractFiles_of_entry _ _ a ha, hbne⟩

/-! The concurrency cap: the `pLimit` scheduler never has more than `limit`
pipelines in flight, and the computed limit is the claimed ceiling formula. -/

theorem active_le_of_reachable (limit : Nat) (init : LimitState)
    (hinit : init.active ≤ limit) (c : LimitState)
    (h : LimitReachable limit init c) : c.active ≤ limit := by
  induction h with
  | refl => exact hinit
  | step h2 hs ih =>
    cases hs with
    | start hact hq => dsimp only; omega
    | finish hact => dsimp only; omega

/-- Natural-number division rounding up agrees with the rational ceiling:
`(n + 1) / 2 = Math.ceil(n / 2)`. -/
theorem ceil_half_eq (n : ℕ) : ⌈(n : ℚ) / 2⌉₊ = (n + 1) / 2 := by
  rcases Nat.even_or_odd n with ⟨k, hk⟩ | ⟨k, hk⟩
  · subst hk
    have h2 : ((k + k : ℕ) : ℚ) / 2 = (k : ℚ) := by push_cast; ring
    rw [h2, Nat.ceil_natCast]
    omega
  · subst hk
    have h1 : (((2 * k + 1 : ℕ) : ℚ)) / 2 ≤ ((k + 1 : ℕ) : ℚ) := by
      push_cast; linarith
    have h0 : (((k + 1 : ℕ) - 1 : ℕ) : ℚ) < ((2 * k + 1 : ℕ) : ℚ) / 2 := by
      push_cast [Nat.add_sub_cancel]; linarith
    have hr := (Nat.ceil_eq_iff (n := k + 1)
      (a := ((2 * k + 1 : ℕ) : ℚ) / 2) (by omega)).mpr ⟨h0, h1⟩
    rw [hr]
    omega

/-! Claim C1. -/

/-- C1 counterexample: installing left-pad with requested version "latest"
succeeds, yet the manifest's regular dependency group records the concrete
resolved version "1.3.0" rather than the requested string "latest" — the
source reassigns `version = packageStream.resolvedVersion` before calling
`updateToyPackageJson`. -/
theorem C1_counterexample :
    (installPackage okWorld emptySys "left-pad" "latest" false).isSuccess
      = true ∧
    depOf (installPackage okWorld emptySys "left-pad" "latest" false).sys
      "left-pad" = some "1.3.0" ∧
    ("1.3.0" : String) ≠ "latest" :=
  ⟨by decide, by decide, by decide⟩

/-- C1 (amended): after `installOne(name, requestedVersion, isDev)` succeeds,
the dependency manifest's selected group maps the name to the *resolved*
concrete version string — the same resolution the lock file records — not to
the requested version string as given by the caller. -/
theorem C1_manifest_gets_resolved_version (w : World) (s0 : Sys)
    (n v : String) (d : Bool) (s2 : Sys) (ps : PackageStream)
    (vd : VersionData)
    (hdl : downloadPackage w n v = .ok ps)
    (hgd : getPackageData w.registry n ps.resolvedVersion = .ok vd)
    (h : installPackage w s0 n v d = .success s2) :
    groupOf s2 d n = some ps.resolvedVersion :=
  (installPackage_success_obs w s0 n v d s2 ps vd hdl hgd h).1

/-- C1 witness: the amended theorem at the concrete left-pad install. -/
theorem C1_witness :
    groupOf (installPackage okWorld emptySys "left-pad" "latest" false).sys
      false "left-pad" = some "1.3.0" :=
  C1_manifest_gets_resolved_version okWorld emptySys "left-pad" "latest"
    false (installPackage okWorld emptySys "left-pad" "latest" false).sys
    ⟨"https://reg/left-pad-1.3.0.tgz", "1.3.0"⟩
    { version := "1.3.0",
      dist := { tarball := "https://reg/left-pad-1.3.0.tgz",
                shasum := "5b8a" } }
    rfl rfl rfl

/-! Claim C2. -/

/-- C2 counterexample: requesting version "9.9.9" of left-pad, which is
absent from the version mapping, fails with the version-not-found error —
but a filesystem write has happened: the module directory `left-pad`, absent
before the call, exists afterwards (`fs.mkdirSync` runs before version
resolution). -/
theorem C2_counterexample :
    installPackage okWorld emptySys "left-pad" "9.9.9" false =
      .rejected (.versionNotFound "9.9.9" "left-pad")
        (setDir emptySys "left-pad" []) ∧
    dirContents emptySys "left-pad" = none ∧
    dirContents
      (installPackage okWorld emptySys "left-pad" "9.9.9" false).sys
      "left-pad" = some [] :=
  ⟨by decide, by decide, by decide⟩

/-- C2 (amended): a request of "latest" or the empty (absent) version
resolves to the registry metadata's `dist-tags.latest`; a request of an
explicit version absent from the metadata's version mapping makes
`installOne` fail with the version-not-found error, and it writes neither
the manifest nor the lock file — but the module directory has already been
created by the initial mkdir, so the state is exactly `mkdirRecursive` of
the input, not the unchanged input. -/
theorem C2_version_resolution (w : World) (s0 : Sys) (n version : String)
    (d : Bool) (md : Metadata)
    (hmd : fetchPackageMetadata w.registry n = .ok md) :
    ((version = "latest" ∨ version = "") → ∀ ps,
        downloadPackage w n version = .ok ps →
        ps.resolvedVersion = md.distTagsLatest) ∧
    (version ≠ "latest" → version ≠ "" →
      md.versions.lookup version = none →
      installPackage w s0 n version d =
        .rejected (.versionNotFound version n) (mkdirRecursive s0 n) ∧
      (mkdirRecursive s0 n).toyPackageJson = s0.toyPackageJson ∧
      (mkdirRecursive s0 n).lockFile = s0.lockFile ∧
      (mkdirRecursive s0 n).manifestWrites = s0.manifestWrites ∧
      (mkdirRecursive s0 n).lockWrites = s0.lockWrites) := by
  constructor
  · intro hv ps hok
    have hcond : (version == "latest" || version == "") = true := by
      rcases hv with h | h <;> simp [h]
    simp only [downloadPackage, hmd, hcond, if_true] at hok
    cases hlk : md.versions.lookup md.distTagsLatest with
    | none => rw [hlk] at hok; cases hok
    | some vd =>
      rw [hlk] at hok
      dsimp only at hok
      by_cases hf : w.failingTarballs.contains vd.dist.tarball
      · rw [if_pos hf] at hok; cases hok
      · rw [if_neg hf] at hok
        injection hok with h2
        rw [← h2]
  · intro h1 h2 h3
    have hcond : (version == "latest" || version == "") = false := by
      simp [beq_eq_false_iff_ne, h1, h2]
    have hdl : downloadPackage w n version =
        .error (.versionNotFound version n) := by
      simp only [downloadPackage, hmd, hcond, Bool.false_eq_true, if_false,
        h3]
    have hm := mkdirRecursive_frame s0 n
    exact ⟨installPackage_of_error w s0 n version d _ hdl, hm.1, hm.2.1,
      hm.2.2.1, hm.2.2.2⟩

/-- C2 witness: resolution of "latest" yields the latest tag, and the bad
explicit version "9.9.8" rejects with version-not-found in the
post-mkdir state. -/
theorem C2_witness :
    ("1.3.0" : String) = leftPadMetadata.distTagsLatest ∧
    installPackage okWorld emptySys "left-pad" "9.9.8" false =
      .rejected (.versionNotFound "9.9.8" "left-pad")
        (mkdirRecursive emptySys "left-pad") := by
  constructor
  · exact (C2_version_resolution okWorld emptySys "left-pad" "latest" false
      leftPadMetadata rfl).1 (Or.inl rfl)
      ⟨"https://reg/left-pad-1.3.0.tgz", "1.3.0"⟩ rfl
  · exact ((C2_version_resolution okWorld emptySys "left-pad" "9.9.8" false
      leftPadMetadata rfl).2 (by decide) (by decide) (by decide)).1

/-! Claim C3. -/

/-- C3: from the initial state of a manifest's fan-out (all packages queued,
none in flight), every reachable scheduler state has at most
`min(ceil(N / 2), 8)` pipelines in flight; the computed limit equals that
ceiling formula exactly, and is at least 1 whenever there is at least one
package (minimum effective concurrency 1). -/
theorem C3_concurrency_cap (tpj : ToyPackageJson) (c : LimitState)
    (hc : LimitReachable (installLimit tpj) (initState tpj) c) :
    c.active ≤ installLimit tpj ∧
    installLimit tpj = min ⌈(totalPackages tpj : ℚ) / 2⌉₊ 8 ∧
    min 1 (totalPackages tpj) ≤ installLimit tpj := by
  refine ⟨active_le_of_reachable _ _ (Nat.zero_le _) c hc, ?_, ?_⟩
  · rw [installLimit, concurrencyLimit, ceil_half_eq]
  · rw [installLimit, concurrencyLimit]
    omega

/-- C3 witness: the two-package sample manifest has limit 1; after starting
one pipeline the reachable state ⟨1, 1, 0⟩ satisfies the cap. -/
theorem C3_witness :
    (⟨1, 1, 0⟩ : LimitState).active ≤ installLimit sampleManifest ∧
    installLimit sampleManifest =
      min ⌈(totalPackages sampleManifest : ℚ) / 2⌉₊ 8 ∧
    min 1 (totalPackages sampleManifest) ≤ installLimit sampleManifest :=
  C3_concurrency_cap sampleManifest ⟨1, 1, 0⟩
    (LimitReachable.step LimitReachable.refl
      (LimitStep.start _ (by decide) (by decide)))

/-! Claim C4. -/

/-- C4 counterexample: with `tar.x` rejecting (a step-4 extraction failure),
the pipeline's outcome is neither a rejection nor a success — the source's
`new Promise((resolve) => …)` has no reject path and no catch handler, so
the failure does not propagate to the caller as a rejected outcome; the
promise never settles. -/
theorem C4_counterexample :
    extractFailWorld.extractFails = true ∧
    (installPackage extractFailWorld emptySys "left-pad" "" false).isRejected
      = false ∧
    (installPackage extractFailWorld emptySys "left-pad" "" false).isSuccess
      = false :=
  ⟨by decide, by decide, by decide⟩

/-- C4 (amended): a failure of step 2 (version resolution or tarball-fetch
initiation, i.e. of `downloadPackage`) aborts the pipeline and propagates as
a rejected outcome; a failure of the stream write or of extraction (steps
3–4) aborts the pipeline but never settles it — the outcome is neither
rejected nor successful.  In every one of these failure cases the dependency
manifest and the lock file are untouched: same contents and no write
performed at all. -/
theorem C4_failure_frame (w : World) (s0 : Sys) (n v : String) (d : Bool) :
    (∀ e, downloadPackage w n v = .error e →
      installPackage w s0 n v d = .rejected e (mkdirRecursive s0 n) ∧
      (mkdirRecursive s0 n).toyPackageJson = s0.toyPackageJson ∧
      (mkdirRecursive s0 n).lockFile = s0.lockFile ∧
      (mkdirRecursive s0 n).manifestWrites = s0.manifestWrites ∧
      (mkdirRecursive s0 n).lockWrites = s0.lockWrites) ∧
    (∀ ps, downloadPackage w n v = .ok ps →
      (w.streamWriteFails = true ∨ w.extractFails = true) →
      (installPackage w s0 n v d).isRejected = false ∧
      (installPackage w s0 n v d).isSuccess = false ∧
      (installPackage w s0 n v d).sys.toyPackageJson = s0.toyPackageJson ∧
      (installPackage w s0 n v d).sys.lockFile = s0.lockFile ∧
      (installPackage w s0 n v d).sys.manifestWrites = s0.manifestWrites ∧
      (installPackage w s0 n v d).sys.lockWrites = s0.lockWrites) := by
  have hm := mkdirRecursive_frame s0 n
  constructor
  · intro e he
    exact ⟨installPackage_of_error w s0 n v d e he, hm.1, hm.2.1, hm.2.2.1,
      hm.2.2.2⟩
  · intro ps hok hfail
    cases hsw : w.streamWriteFails with
    | true =>
      rw [installPackage_of_streamWriteFail w s0 n v d ps hok hsw]
      exact ⟨rfl, rfl, hm.1, hm.2.1, hm.2.2.1, hm.2.2.2⟩
    | false =>
      have hex : w.extractFails = true := by
        rcases hfail with h | h
        · rw [hsw] at h; cases h
        · exact h
      rw [installPackage_of_extractFail w s0 n v d ps hok hsw hex]
      exact ⟨rfl, rfl, hm.1, hm.2.1, hm.2.2.1, hm.2.2.2⟩

/-- C4 witness: a version-not-found failure rejects in the post-mkdir state;
an extraction failure leaves the lock file untouched. -/
theorem C4_witness :
    installPackage okWorld emptySys "left-pad" "1.9.9" false =
      .rejected (.versionNotFound "1.9.9" "left-pad")
        (mkdirRecursive emptySys "left-pad") ∧
    (installPackage extractFailWorld emptySys "left-pad" "latest"
      false).sys.lockFile = emptySys.lockFile := by
  constructor
  · exact ((C4_failure_frame okWorld emptySys "left-pad" "1.9.9" false).1
      (.versionNotFound "1.9.9" "left-pad") rfl).1
  · exact ((C4_failure_frame extractFailWorld emptySys "left-pad" "latest"
      false).2 ⟨"https://reg/left-pad-1.3.0.tgz", "1.3.0"⟩ rfl
      (Or.inr rfl)).2.2.2.1

/-! Claim C5. -/

theorem depOf_removeLock (s : Sys) (n k : String) :
    depOf (removePackageFromToyPackageLockJson s n) k = depOf s k := by
  unfold depOf
  rw [removeLock_toyPackageJson]

theorem devDepOf_removeLock (s : Sys) (n k : String) :
    devDepOf (removePackageFromToyPackageLockJson s n) k = devDepOf s k := by
  unfold devDepOf
  rw [removeLock_toyPackageJson]

/-- C5: when the module directory exists, `uninstallOne(name)` runs the
removal: the directory is gone, the name is absent from both manifest groups
and from the lock file afterwards. -/
theorem C5_uninstall_removes_everything (s : Sys) (n : String)
    (h : (dirContents s n).isSome = true) :
    (uninstallPackage s n).isDone = true ∧
    dirContents (uninstallPackage s n).sys n = none ∧
    depOf (uninstallPackage s n).sys n = none ∧
    devDepOf (uninstallPackage s n).sys n = none ∧
    lockOf (uninstallPackage s n).sys n = none := by
  cases hl : s.moduleDirs.lookup n with
  | none =>
    unfold dirContents at h
    rw [hl] at h
    cases h
  | some files =>
    simp only [uninstallPackage, hl, UninstallOutcome.sys,
      UninstallOutcome.isDone]
    refine ⟨trivial, ?_, ?_, ?_, ?_⟩
    · unfold dirContents
      rw [removeLock_moduleDirs, removeFromToyPackageJson_moduleDirs]
      exact lookup_delKey_self s.moduleDirs n
    · rw [depOf_removeLock]
      exact depOf_removeFromToyPackageJson _ n
    · rw [devDepOf_removeLock]
      exact devDepOf_removeFromToyPackageJson _ n
    · exact lockOf_removeLock _ n

/-- C5 witness: uninstalling the installed express package from the sample
state removes its directory, both manifest entries and the lock entry. -/
theorem C5_witness :
    (dirContents sampleSys "express").isSome = true ∧
    (uninstallPackage sampleSys "express").isDone = true ∧
    dirContents (uninstallPackage sampleSys "express").sys "express" = none ∧
    depOf (uninstallPackage sampleSys "express").sys "express" = none ∧
    devDepOf (uninstallPackage sampleSys "express").sys "express" = none ∧
    lockOf (uninstallPackage sampleSys "express").sys "express" = none :=
  ⟨by decide, C5_uninstall_removes_everything sampleSys "express" (by decide)⟩

/-! Claim C6. -/

/-- C6: when the module directory does not exist, `uninstallOne(name)`
reports "not found" and returns the state completely unchanged — the
manifest, the lock file, the module tree and both write counters are exactly
as before; no error is raised. -/
theorem C6_uninstall_missing_noop (s : Sys) (n : String)
    (h : dirContents s n = none) :
    uninstallPackage s n = .notFound s := by
  unfold uninstallPackage
  unfold dirContents at h
  rw [h]

/-- C6 witness: uninstalling a never-installed name from the sample state is
a no-op reporting not-found. -/
theorem C6_witness :
    dirContents sampleSys "lodash" = none ∧
    uninstallPackage sampleSys "lodash" = .notFound sampleSys :=
  ⟨by decide, C6_uninstall_missing_noop sampleSys "lodash" (by decide)⟩

/-! Claim C7. -/

/-- C7: after a successful `installOne`, the lock file has an entry for the
name whose `version` equals the resolved version, whose `resolved` field is
the tarball URL and whose `integrity` field is the digest, all taken from
the second registry fetch (`getPackageData`) at the resolved version; and
the module directory is non-empty (it holds every tarball entry other than
the deleted `.tgz` file, of which at least one is assumed to exist).  The
`hwf` hypothesis is registry consistency: the per-version document of the
resolved version carries that version string. -/
theorem C7_lock_entry_and_modules (w : World) (s0 : Sys) (n v : String)
    (d : Bool) (s2 : Sys) (ps : PackageStream) (vd : VersionData) (a : String)
    (hdl : downloadPackage w n v = .ok ps)
    (hgd : getPackageData w.registry n ps.resolvedVersion = .ok vd)
    (hwf : vd.version = ps.resolvedVersion)
    (ha : a ∈ (w.registry.tarballs.lookup ps.tarballUrl).getD [])
    (hane : a ≠ tgzName n ps.resolvedVersion)
    (h : installPackage w s0 n v d = .success s2) :
    lockOf s2 n =
      some ⟨ps.resolvedVersion, vd.dist.tarball, vd.dist.shasum⟩ ∧
    (dirContents s2 n).getD [] ≠ [] := by
  obtain ⟨h1, h2, h3⟩ :=
    installPackage_success_obs w s0 n v d s2 ps vd hdl hgd h
  constructor
  · rw [h2, hwf]
  · exact List.ne_nil_of_mem (h3 a ha hane)

/-- C7 witness: the concrete left-pad install (empty requested version)
locks version 1.3.0 with its tarball URL and digest, and the module
directory is non-empty. -/
theorem C7_witness :
    lockOf (installPackage okWorld emptySys "left-pad" "" false).sys
      "left-pad" =
      some ⟨"1.3.0", "https://reg/left-pad-1.3.0.tgz", "5b8a"⟩ ∧
    (dirContents (installPackage okWorld emptySys "left-pad" "" false).sys
      "left-pad").getD [] ≠ [] :=
  C7_lock_entry_and_modules okWorld emptySys "left-pad" "" false
    (installPackage okWorld emptySys "left-pad" "" false).sys
    ⟨"https://reg/left-pad-1.3.0.tgz", "1.3.0"⟩
    { version := "1.3.0",
      dist := { tarball := "https://reg/left-pad-1.3.0.tgz",
                shasum := "5b8a" } }
    "package.json" rfl rfl rfl (by decide) (by decide) rfl

/-! Claim C8. -/

/-- C8: with a persisted manifest and no concurrent writer, `upsert` sets
the name in the selected group, keeps every sibling key of that group, keeps
the other group entirely (so an entry for the same name there stays put),
and keeps the project-metadata fields verbatim — all as observed on the
rewritten file. -/
theorem C8_upsert_frame (s : Sys) (m : ToyPackageJson) (n v : String)
    (d : Bool) (hm : s.toyPackageJson = some m) :
    groupOf (updateToyPackageJson s n v d) d n = some v ∧
    manifestMeta (updateToyPackageJson s n v d) = some m.meta ∧
    (∀ k, k ≠ n →
      groupOf (updateToyPackageJson s n v d) d k = groupOf s d k) ∧
    (∀ k, groupOf (updateToyPackageJson s n v d) (!d) k =
      groupOf s (!d) k) := by
  cases d with
  | false =>
    refine ⟨groupOf_updateToyPackageJson_self s n v false, ?_, ?_, ?_⟩
    · simp [manifestMeta, updateToyPackageJson, hm]
    · intro k hk
      simp [groupOf, depOf, updateToyPackageJson, hm,
        lookup_setKey_ne m.dependencies n k v hk]
    · intro k
      simp [groupOf, devDepOf, updateToyPackageJson, hm]
  | true =>
    refine ⟨groupOf_updateToyPackageJson_self s n v true, ?_, ?_, ?_⟩
    · simp [manifestMeta, updateToyPackageJson, hm]
    · intro k hk
      simp [groupOf, devDepOf, updateToyPackageJson, hm,
        lookup_setKey_ne m.devDependencies n k v hk]
    · intro k
      simp [groupOf, depOf, updateToyPackageJson, hm]

/-- C8 witness: upserting left-pad into the sample manifest's regular group
keeps the metadata, the sibling express entry and the dev-group mocha entry
unchanged. -/
theorem C8_witness :
    groupOf (updateToyPackageJson sampleSys "left-pad" "latest" false) false
      "left-pad" = some "latest" ∧
    manifestMeta (updateToyPackageJson sampleSys "left-pad" "latest" false) =
      some sampleManifest.meta ∧
    groupOf (updateToyPackageJson sampleSys "left-pad" "latest" false) false
      "express" = groupOf sampleSys false "express" ∧
    groupOf (updateToyPackageJson sampleSys "left-pad" "latest" false) true
      "mocha" = groupOf sampleSys true "mocha" := by
  obtain ⟨h1, h2, h3, h4⟩ :=
    C8_upsert_frame sampleSys sampleManifest "left-pad" "latest" false rfl
  exact ⟨h1, h2, h3 "express" (by decide), h4 "mocha"⟩

/-! Claim C9. -/

/-- C9: when the lock file lacks the key — including when the lock file
itself does not exist — `lockRemove(name)` performs no write at all: the
resulting state is the input state itself, write counter included, so the
file bytes are untouched rather than rewritten equal. -/
theorem C9_lockRemove_absent_no_write (s : Sys) (n : String)
    (h : lockOf s n = none) :
    removePackageFromToyPackageLockJson s n = s := by
  cases hf : s.lockFile with
  | none => simp [removePackageFromToyPackageLockJson, hf]
  | some l =>
    have hlk : l.lookup n = none := by
      simp only [lockOf, hf] at h
      exact h
    simp [removePackageFromToyPackageLockJson, hf, hlk]

/-- C9 witness: removing a key absent from the sample lock file returns the
state unchanged. -/
theorem C9_witness :
    lockOf sampleSys "lodash" = none ∧
    removePackageFromToyPackageLockJson sampleSys "lodash" = sampleSys :=
  ⟨by decide, C9_lockRemove_absent_no_write sampleSys "lodash" (by decide)⟩

/-! Claim C10. -/

/-- C10: when the lock file does not exist, `lockUpsert(name, info)` creates
a fresh lock file whose mapping is exactly the single entry name → info. -/
theorem C10_lockUpsert_creates_fresh (s : Sys) (n : String)
    (info : PackageInfo) (h : s.lockFile = none) :
    (updateToyPackageLockJson s n info).lockFile = some [(n, info)] := by
  simp [updateToyPackageLockJson, h, setKey]

/-- C10 witness: upserting into the fresh state creates the singleton lock
mapping. -/
theorem C10_witness :
    emptySys.lockFile = none ∧
    (updateToyPackageLockJson emptySys "left-pad"
      ⟨"1.3.0", "https://reg/left-pad-1.3.0.tgz", "5b8a"⟩).lockFile =
      some [("left-pad",
        ⟨"1.3.0", "https://reg/left-pad-1.3.0.tgz", "5b8a"⟩)] :=
  ⟨rfl, C10_lockUpsert_creates_fresh emptySys "left-pad" _ rfl⟩

end ToyNpm
